import Mathlib

/-!
Verification of the nexus-erofs snapshotter core primitives against their
specification.  The Go sources are shallowly embedded: pure functions become
Lean functions, the mutex-guarded mount tracker becomes explicit state passing
over an association list, `time.Duration` (an int64 nanosecond count) becomes
`Int`, and `float64` backoff multipliers become `ℚ` with explicit truncation
toward zero where Go converts back to an integer duration.
-/

namespace NexusErofs

/-! ## Layer-order primitive (internal/snapshotter/layer_order.go) -/

/-- LayerOrder represents the ordering convention for layer sequences.
Mirrors the Go `LayerOrder` enum with its two values. -/
inductive LayerOrder where
  | newestFirst
  | oldestFirst
deriving DecidableEq, Repr

/-- Opposite returns the opposite ordering convention
(`LayerOrder.Opposite` in layer_order.go). -/
def LayerOrder.Opposite (o : LayerOrder) : LayerOrder :=
  if o = .newestFirst then .oldestFirst else .newestFirst

/-- LayerSequence holds a list of layer identifiers with explicit ordering
(struct `LayerSequence` in layer_order.go). -/
structure LayerSequence where
  IDs : List String
  Order : LayerOrder
deriving DecidableEq, Repr

/-- NewNewestFirst creates a LayerSequence with newest-first ordering. -/
def NewNewestFirst (ids : List String) : LayerSequence :=
  ⟨ids, .newestFirst⟩

/-- NewOldestFirst creates a LayerSequence with oldest-first ordering. -/
def NewOldestFirst (ids : List String) : LayerSequence :=
  ⟨ids, .oldestFirst⟩

/-- Reverse returns a new LayerSequence with reversed order.  The Go loop
writes element `i` of the input to slot `len-1-i` of a fresh slice, which is
exactly list reversal; the Order field is flipped via Opposite. -/
def LayerSequence.Reverse (s : LayerSequence) : LayerSequence :=
  { IDs := s.IDs.reverse, Order := s.Order.Opposite }

/-- Len returns the number of layers in the sequence. -/
def LayerSequence.Len (s : LayerSequence) : Nat := s.IDs.length

/-- IsEmpty returns true if the sequence has no layers. -/
def LayerSequence.IsEmpty (s : LayerSequence) : Bool := s.IDs.length = 0

/-- ToOldestFirst returns the sequence in oldest-first order.  If already
oldest-first it returns a copy of the id buffer (value-identical in the pure
model), otherwise it reverses. -/
def LayerSequence.ToOldestFirst (s : LayerSequence) : LayerSequence :=
  if s.Order = .oldestFirst then
    { IDs := s.IDs, Order := .oldestFirst }
  else
    s.Reverse

/-- ToNewestFirst returns the sequence in newest-first order.  If already
newest-first it returns a copy of the id buffer, otherwise it reverses. -/
def LayerSequence.ToNewestFirst (s : LayerSequence) : LayerSequence :=
  if s.Order = .newestFirst then
    { IDs := s.IDs, Order := .newestFirst }
  else
    s.Reverse

theorem LayerOrder.Opposite_Opposite (o : LayerOrder) :
    o.Opposite.Opposite = o := by
  cases o <;> rfl

/-- C1: for every layer sequence `s` (any IDs list, either direction tag),
`s.Reverse().Reverse()` equals `s` in both element content and direction tag.
Reverse is a pure value transformer in the embedding, so the original sequence
is untouched by construction. -/
theorem reverse_reverse_id (s : LayerSequence) : s.Reverse.Reverse = s := by
  cases s with
  | mk ids o =>
    simp [LayerSequence.Reverse, LayerOrder.Opposite_Opposite]

/-- C2: `ToOldestFirst` yields the oldest-first tag and preserves the elements
modulo reversal (identity on an oldest-first input, reversal on a newest-first
input); symmetrically for `ToNewestFirst`. -/
theorem toOldestFirst_spec (s : LayerSequence) :
    (s.ToOldestFirst.Order = .oldestFirst ∧
      s.ToOldestFirst.IDs =
        (if s.Order = .oldestFirst then s.IDs else s.IDs.reverse)) ∧
    (s.ToNewestFirst.Order = .newestFirst ∧
      s.ToNewestFirst.IDs =
        (if s.Order = .newestFirst then s.IDs else s.IDs.reverse)) := by
  cases s with
  | mk ids o =>
    cases o <;>
      simp [LayerSequence.ToOldestFirst, LayerSequence.ToNewestFirst,
        LayerSequence.Reverse, LayerOrder.Opposite]

/-! ## Mount-state tracker (MountTracker, mount-state source file) -/

/-- MountState mirrors the Go `MountState` enum: unknown is the zero value
returned for untracked ids. -/
inductive MountState where
  | unknown
  | unmounted
  | mounted
  | mountedByUs
deriving DecidableEq, Repr

/-- IsMounted returns true if the state indicates the mount is active
(`s == MountStateMounted || s == MountStateMountedByUs`). -/
def MountState.IsMounted (s : MountState) : Bool :=
  s = .mounted || s = .mountedByUs

/-- NeedsCleanup returns true if we are responsible for unmounting
(`s == MountStateMountedByUs`). -/
def MountState.NeedsCleanup (s : MountState) : Bool :=
  s = .mountedByUs

/-- The tracker's map `states map[string]MountState`, embedded as an
association list (Go map semantics are lookup-based, so only the association
matters; `set` keeps keys unique). -/
def Tracker := List (String × MountState)

/-- NewMountTracker: the empty map. -/
def Tracker.empty : Tracker := []

/-- Get returns the current mount state for a snapshot id, `unknown` (the Go
zero value) when the id has no entry. -/
def Tracker.get : Tracker → String → MountState
  | [], _ => .unknown
  | (k, v) :: rest, id => if k = id then v else Tracker.get rest id

/-- Map-entry deletion (`delete(t.states, id)`). -/
def Tracker.del : Tracker → String → Tracker
  | [], _ => []
  | (k, v) :: rest, id =>
    if k = id then Tracker.del rest id else (k, v) :: Tracker.del rest id

/-- Whether the map holds an entry for `id` at all (distinguishes a stored
state from the zero value an absent key yields). -/
def Tracker.hasEntry : Tracker → String → Bool
  | [], _ => false
  | (k, _) :: rest, id => k = id || Tracker.hasEntry rest id

/-- Set updates the mount state for a snapshot id.  As in `MountTracker.Set`,
setting `unmounted` deletes the entry (to prevent unbounded growth); any other
state overwrites the entry. -/
def Tracker.set (t : Tracker) (id : String) (st : MountState) : Tracker :=
  if st = .unmounted then t.del id else (id, st) :: t.del id

/-- IsMounted on the tracker: `t.Get(id).IsMounted()`. -/
def Tracker.IsMounted (t : Tracker) (id : String) : Bool :=
  (t.get id).IsMounted

/-- NeedsCleanup on the tracker: `t.Get(id).NeedsCleanup()`. -/
def Tracker.NeedsCleanup (t : Tracker) (id : String) : Bool :=
  (t.get id).NeedsCleanup

/-- A mutation of the tracker.  `MountTracker.Set(id, st)` is the only
primitive mutation per id; `SetMounted id` is `set id mountedByUs` and
`SetUnmounted id` is `set id unmounted` in the source, so they are instances
of this constructor. -/
inductive TrackerOp where
  | set (id : String) (st : MountState)
deriving DecidableEq, Repr

/-- Apply one mutation. -/
def trackerStep (t : Tracker) (op : TrackerOp) : Tracker :=
  match op with
  | .set id st => t.set id st

/-- Run a sequence of mutations from a starting tracker. -/
def trackerRun (t : Tracker) (ops : List TrackerOp) : Tracker :=
  List.foldl trackerStep t ops

/-- The state the LAST mutation for `id` in `ops` set, if any. -/
def lastSetState : List TrackerOp → String → Option MountState
  | [], _ => none
  | .set i st :: rest, id =>
    match lastSetState rest id with
    | some s => some s
    | none => if i = id then some st else none

theorem get_del_self (t : Tracker) (id : String) :
    (t.del id).get id = .unknown := by
  induction t with
  | nil => rfl
  | cons hd tl ih =>
    obtain ⟨k, v⟩ := hd
    by_cases h : k = id <;> simp [Tracker.del, Tracker.get, h, ih]

theorem hasEntry_del_self (t : Tracker) (id : String) :
    (t.del id).hasEntry id = false := by
  induction t with
  | nil => rfl
  | cons hd tl ih =>
    obtain ⟨k, v⟩ := hd
    by_cases h : k = id <;> simp [Tracker.del, Tracker.hasEntry, h, ih]

theorem get_del_other (t : Tracker) (id i : String) (hne : ¬ i = id) :
    (t.del i).get id = t.get id := by
  induction t with
  | nil => rfl
  | cons hd tl ih =>
    obtain ⟨k, v⟩ := hd
    have hne' : ¬ id = i := fun hcon => hne hcon.symm
    by_cases hk : k = i
    · have hk2 : ¬ k = id := by
        intro hcon
        exact hne (hk ▸ hcon)
      simp [Tracker.del, Tracker.get, hk, hk2, hne, ih]
    · by_cases hk2 : k = id <;>
        simp [Tracker.del, Tracker.get, hk, hk2, hne, hne', ih]

theorem get_set_self (t : Tracker) (id : String) (st : MountState) :
    (t.set id st).get id = if st = .unmounted then .unknown else st := by
  by_cases h : st = .unmounted
  · simp [Tracker.set, h, get_del_self]
  · simp [Tracker.set, Tracker.get, h]

theorem get_set_other (t : Tracker) (id i : String) (st : MountState)
    (hne : ¬ i = id) : (t.set i st).get id = t.get id := by
  by_cases h : st = .unmounted
  · simp [Tracker.set, h, get_del_other t id i hne]
  · simp [Tracker.set, Tracker.get, h, hne, get_del_other t id i hne]

theorem trackerRun_cons (t : Tracker) (op : TrackerOp) (rest : List TrackerOp) :
    trackerRun t (op :: rest) = trackerRun (trackerStep t op) rest := rfl

theorem trackerRun_append_single (t : Tracker) (ops : List TrackerOp)
    (op : TrackerOp) :
    trackerRun t (ops ++ [op]) = trackerStep (trackerRun t ops) op := by
  simp [trackerRun, List.foldl_append]

/-- After running `ops` from any tracker `t`, `get id` is decided by the last
mutation for `id` (deletion on `unmounted`, the stored state otherwise), and
by the initial tracker when `ops` never mutates `id`. -/
theorem get_trackerRun (ops : List TrackerOp) (t : Tracker) (id : String) :
    (trackerRun t ops).get id =
      match lastSetState ops id with
      | some st => if st = .unmounted then .unknown else st
      | none => t.get id := by
  induction ops generalizing t with
  | nil => rfl
  | cons op rest ih =>
    cases op with
    | set i st =>
      rw [trackerRun_cons]
      have hstep : trackerStep t (.set i st) = t.set i st := rfl
      rw [hstep, ih (t.set i st)]
      by_cases h : i = id
      · subst h
        cases hrest : lastSetState rest i with
        | some s => simp [lastSetState, hrest]
        | none => simp [lastSetState, hrest, get_set_self]
      · cases hrest : lastSetState rest id with
        | some s => simp [lastSetState, hrest, h]
        | none => simp [lastSetState, hrest, h, get_set_other t id i st h]

theorem lastSetState_append_unmounted (ops : List TrackerOp) (id : String) :
    lastSetState (ops ++ [.set id .unmounted]) id = some .unmounted := by
  induction ops with
  | nil => simp [lastSetState]
  | cons op rest ih =>
    cases op with
    | set i st =>
      simp [lastSetState, List.append_eq, ih]

/-- C3: over every sequence of tracker mutations and every id, (a) a final
`set id unmounted` removes the entry and a subsequent Get returns `unknown`;
(b) `IsMounted id` holds iff the last mutation for `id` left it in `mounted`
or `mountedByUs`; (c) `NeedsCleanup id` holds iff the last mutation left it in
`mountedByUs`. -/
theorem mountTracker_spec (ops : List TrackerOp) (id : String) :
    ((trackerRun Tracker.empty (ops ++ [.set id .unmounted])).hasEntry id
        = false ∧
      (trackerRun Tracker.empty (ops ++ [.set id .unmounted])).get id
        = .unknown) ∧
    ((trackerRun Tracker.empty ops).IsMounted id = true ↔
      (lastSetState ops id = some .mounted ∨
        lastSetState ops id = some .mountedByUs)) ∧
    ((trackerRun Tracker.empty ops).NeedsCleanup id = true ↔
      lastSetState ops id = some .mountedByUs) := by
  have hget := get_trackerRun ops Tracker.empty id
  have hget2 := get_trackerRun (ops ++ [.set id .unmounted]) Tracker.empty id
  rw [lastSetState_append_unmounted] at hget2
  refine ⟨⟨?_, ?_⟩, ?_, ?_⟩
  · rw [trackerRun_append_single]
    have hstep :
        trackerStep (trackerRun Tracker.empty ops) (.set id .unmounted)
          = (trackerRun Tracker.empty ops).set id .unmounted := rfl
    rw [hstep]
    simp [Tracker.set, hasEntry_del_self]
  · simpa using hget2
  · rw [Tracker.IsMounted, hget]
    cases hrest : lastSetState ops id with
    | some s => cases s <;> simp [MountState.IsMounted]
    | none => simp [Tracker.empty, Tracker.get, MountState.IsMounted]
  · rw [Tracker.NeedsCleanup, hget]
    cases hrest : lastSetState ops id with
    | some s => cases s <;> simp [MountState.NeedsCleanup]
    | none => simp [Tracker.empty, Tracker.get, MountState.NeedsCleanup]

/-! ## Error taxonomy (internal/snapshotter/errors.go and retry wrapping) -/

/-- GoErr embeds the snapshotter error values: the structured kinds of
errors.go, the `fmt.Errorf("after %d attempts: %w", ...)` wrapper produced by
the retry loop, the validation error for a bad MaxAttempts, the context
cancellation error, plus `base` for arbitrary leaf errors (errors.New) and
`goNil` standing for Go's nil error value (reachable only on dead paths). -/
inductive GoErr where
  | base (msg : String)
  | layerBlobNotFound (snapshotID dir : String) (searched : List String)
  | blockMount (source target : String) (cause : GoErr)
  | fsmetaGeneration (snapshotID : String) (layerCount : Int) (cause : GoErr)
  | commitConversion (snapshotID upperDir : String) (cause : GoErr)
  | incompatibleBlockSize (layerCount : Int) (details : String)
  | afterAttempts (attempts : Int) (cause : GoErr)
  | invalidMaxAttempts (got : Int)
  | ctxCanceled
  | goNil
deriving DecidableEq, Repr

/-- Unwrap, as implemented by the wrapper kinds of errors.go (the three
structured wrappers return their Cause) and by `%w` wrapping in the retry
loop; every other kind has no Unwrap method. -/
def GoErr.unwrap : GoErr → Option GoErr
  | .blockMount _ _ c => some c
  | .fsmetaGeneration _ _ c => some c
  | .commitConversion _ _ c => some c
  | .afterAttempts _ c => some c
  | _ => none

/-- The one custom `Is` method in errors.go: `LayerBlobNotFoundError.Is`
matches any target of the same type. -/
def GoErr.isOverride : GoErr → GoErr → Bool
  | .layerBlobNotFound _ _ _, .layerBlobNotFound _ _ _ => true
  | _, _ => false

/-- Error rendering (`Error()` methods; `%v` of the cause is its message). -/
def GoErr.message : GoErr → String
  | .base m => m
  | .layerBlobNotFound id dir searched =>
    "layer blob not found for snapshot " ++ id ++ " in " ++ dir ++
      " (searched: " ++ String.intercalate " " searched ++ ")"
  | .blockMount src tgt c =>
    "mount block " ++ src ++ " at " ++ tgt ++ ": " ++ GoErr.message c
  | .fsmetaGeneration id n c =>
    "generate fsmeta for " ++ id ++ " (" ++ toString n ++ " layers): " ++
      GoErr.message c
  | .commitConversion id upper c =>
    "convert snapshot " ++ id ++ " upper " ++ upper ++ " to EROFS: " ++
      GoErr.message c
  | .incompatibleBlockSize n details =>
    "cannot merge " ++ toString n ++ " layers: " ++ details
  | .afterAttempts n c =>
    "after " ++ toString n ++ " attempts: " ++ GoErr.message c
  | .invalidMaxAttempts got =>
    "invalid retry config: MaxAttempts must be >= 1, got " ++ toString got
  | .ctxCanceled => "context canceled"
  | .goNil => ""

/-- errors.Is: identity with the target (structural equality stands for Go
value identity in the model), the chain element's own Is method, else recurse
into Unwrap. -/
def errorsIs : GoErr → GoErr → Bool
  | .blockMount a b c, t =>
    decide (GoErr.blockMount a b c = t) || errorsIs c t
  | .fsmetaGeneration a b c, t =>
    decide (GoErr.fsmetaGeneration a b c = t) || errorsIs c t
  | .commitConversion a b c, t =>
    decide (GoErr.commitConversion a b c = t) || errorsIs c t
  | .afterAttempts a c, t =>
    decide (GoErr.afterAttempts a c = t) || errorsIs c t
  | .layerBlobNotFound a b c, t =>
    decide (GoErr.layerBlobNotFound a b c = t) ||
      GoErr.isOverride (.layerBlobNotFound a b c) t
  | e, t => decide (e = t)

/-- errors.As with target type *BlockMountError: first chain element of that
kind, walking Unwrap. -/
def errorsAsBlockMount : GoErr → Option (String × String × GoErr)
  | .blockMount a b c => some (a, b, c)
  | .fsmetaGeneration _ _ c => errorsAsBlockMount c
  | .commitConversion _ _ c => errorsAsBlockMount c
  | .afterAttempts _ c => errorsAsBlockMount c
  | _ => none

/-- errors.As with target type *FsmetaGenerationError. -/
def errorsAsFsmetaGeneration : GoErr → Option (String × Int × GoErr)
  | .fsmetaGeneration a b c => some (a, b, c)
  | .blockMount _ _ c => errorsAsFsmetaGeneration c
  | .commitConversion _ _ c => errorsAsFsmetaGeneration c
  | .afterAttempts _ c => errorsAsFsmetaGeneration c
  | _ => none

/-- errors.As with target type *CommitConversionError. -/
def errorsAsCommitConversion : GoErr → Option (String × String × GoErr)
  | .commitConversion a b c => some (a, b, c)
  | .blockMount _ _ c => errorsAsCommitConversion c
  | .fsmetaGeneration _ _ c => errorsAsCommitConversion c
  | .afterAttempts _ c => errorsAsCommitConversion c
  | _ => none

/-- A wrap step using one of the taxonomy wrapper kinds with a cause. -/
inductive Wrapper where
  | blockMount (source target : String)
  | fsmetaGeneration (snapshotID : String) (layerCount : Int)
  | commitConversion (snapshotID upperDir : String)
deriving DecidableEq, Repr

/-- Build the wrapper error around a cause. -/
def Wrapper.wrap : Wrapper → GoErr → GoErr
  | .blockMount a b, c => .blockMount a b c
  | .fsmetaGeneration a n, c => .fsmetaGeneration a n c
  | .commitConversion a u, c => .commitConversion a u c

/-- A finite wrap chain around a root error, outermost wrapper first. -/
def wrapChain (ws : List Wrapper) (root : GoErr) : GoErr :=
  List.foldr Wrapper.wrap root ws

theorem errorsIs_self (e : GoErr) : errorsIs e e = true := by
  cases e <;> simp [errorsIs]

theorem errorsIs_wrap (w : Wrapper) (e target : GoErr)
    (h : errorsIs e target = true) :
    errorsIs (w.wrap e) target = true := by
  cases w <;> simp [Wrapper.wrap, errorsIs, h]

theorem errorsIs_wrapChain (ws : List Wrapper) (root : GoErr) :
    errorsIs (wrapChain ws root) root = true := by
  induction ws with
  | nil => exact errorsIs_self root
  | cons w rest ih => exact errorsIs_wrap w (wrapChain rest root) root ih

theorem errorsAsBlockMount_wrap (w : Wrapper) (e : GoErr)
    (h : (errorsAsBlockMount e).isSome = true) :
    (errorsAsBlockMount (w.wrap e)).isSome = true := by
  cases w <;> simp [Wrapper.wrap, errorsAsBlockMount, h]

theorem errorsAsFsmetaGeneration_wrap (w : Wrapper) (e : GoErr)
    (h : (errorsAsFsmetaGeneration e).isSome = true) :
    (errorsAsFsmetaGeneration (w.wrap e)).isSome = true := by
  cases w <;> simp [Wrapper.wrap, errorsAsFsmetaGeneration, h]

theorem errorsAsCommitConversion_wrap (w : Wrapper) (e : GoErr)
    (h : (errorsAsCommitConversion e).isSome = true) :
    (errorsAsCommitConversion (w.wrap e)).isSome = true := by
  cases w <;> simp [Wrapper.wrap, errorsAsCommitConversion, h]

/-- C8: a wrapper kind with a non-nil cause unwraps to exactly that cause;
for any finite wrap chain over the three wrapper kinds, errors.Is on the
outermost error finds the root, and errors.As succeeds for every wrapper kind
present in the chain. -/
theorem errorTaxonomy_spec (ws : List Wrapper) (root : GoErr) :
    (∀ w : Wrapper, (w.wrap root).unwrap = some root) ∧
    errorsIs (wrapChain ws root) root = true ∧
    (∀ a b, Wrapper.blockMount a b ∈ ws →
      (errorsAsBlockMount (wrapChain ws root)).isSome = true) ∧
    (∀ a n, Wrapper.fsmetaGeneration a n ∈ ws →
      (errorsAsFsmetaGeneration (wrapChain ws root)).isSome = true) ∧
    (∀ a u, Wrapper.commitConversion a u ∈ ws →
      (errorsAsCommitConversion (wrapChain ws root)).isSome = true) := by
  refine ⟨?_, errorsIs_wrapChain ws root, ?_, ?_, ?_⟩
  · intro w
    cases w <;> rfl
  · intro a b hmem
    induction ws with
    | nil => cases hmem
    | cons w rest ih =>
      rcases List.mem_cons.mp hmem with heq | hmem2
      · subst heq
        simp [wrapChain, Wrapper.wrap, errorsAsBlockMount]
      · exact errorsAsBlockMount_wrap w (wrapChain rest root) (ih hmem2)
  · intro a n hmem
    induction ws with
    | nil => cases hmem
    | cons w rest ih =>
      rcases List.mem_cons.mp hmem with heq | hmem2
      · subst heq
        simp [wrapChain, Wrapper.wrap, errorsAsFsmetaGeneration]
      · exact errorsAsFsmetaGeneration_wrap w (wrapChain rest root) (ih hmem2)
  · intro a u hmem
    induction ws with
    | nil => cases hmem
    | cons w rest ih =>
      rcases List.mem_cons.mp hmem with heq | hmem2
      · subst heq
        simp [wrapChain, Wrapper.wrap, errorsAsCommitConversion]
      · exact errorsAsCommitConversion_wrap w (wrapChain rest root) (ih hmem2)

/-- C8 witness: the 3-level chain of TestErrorChainDepth — a base cause
wrapped by BlockMount then CommitConversion; Is finds the root and As finds
the intermediate BlockMount wrapper. -/
theorem errorTaxonomy_spec_witness :
    errorsIs
      (wrapChain
        [Wrapper.commitConversion "snap-abc" "/var/lib/snapshotter/abc/upper",
          Wrapper.blockMount "/path/to/block.img" "/mnt/target"]
        (.base "root cause: filesystem full"))
      (.base "root cause: filesystem full") = true ∧
    (errorsAsBlockMount
      (wrapChain
        [Wrapper.commitConversion "snap-abc" "/var/lib/snapshotter/abc/upper",
          Wrapper.blockMount "/path/to/block.img" "/mnt/target"]
        (.base "root cause: filesystem full"))).isSome = true := by
  have h := errorTaxonomy_spec
    [Wrapper.commitConversion "snap-abc" "/var/lib/snapshotter/abc/upper",
      Wrapper.blockMount "/path/to/block.img" "/mnt/target"]
    (.base "root cause: filesystem full")
  exact ⟨h.2.1, h.2.2.1 "/path/to/block.img" "/mnt/target" (by decide)⟩

/-! ## Retry primitive (new retryLoop-based file and old duplicate-loop file) -/

/-- RetryConfig mirrors the Go struct: durations are int64 nanosecond counts
(`time.Duration`), the float64 multiplier is embedded as a rational. -/
structure RetryConfig where
  MaxAttempts : Int
  InitialWait : Int
  MaxWait : Int
  Multiplier : ℚ
deriving DecidableEq, Repr

/-- DefaultRetryConfig: 3 attempts, 100ms initial, 2s cap, x2. -/
def DefaultRetryConfig : RetryConfig :=
  { MaxAttempts := 3, InitialWait := 100000000, MaxWait := 2000000000,
    Multiplier := 2 }

/-- Go conversion of a float back to an integer duration truncates toward
zero (`time.Duration(float64(wait) * cfg.Multiplier)`). -/
def durTrunc (q : ℚ) : Int :=
  if 0 ≤ q then Int.floor q else Int.ceil q

/-- The backoff update both implementations share: multiply by Multiplier,
truncate to a duration, cap at MaxWait. -/
def nextWait (cfg : RetryConfig) (wait : Int) : Int :=
  let w := durTrunc ((wait : ℚ) * cfg.Multiplier)
  if w > cfg.MaxWait then cfg.MaxWait else w

/-- waitWithContext: returns the context error if the context is cancelled
during the wait, nil otherwise.  The cancellation state of the context at the
k-th wait is a boolean input. -/
def waitWithContext (cancelledNow : Bool) : Option GoErr :=
  if cancelledNow then some .ctxCanceled else none

/-- The observable outcome of a retry run: the final result, how many times
the closure was called, and the waits actually slept through (in order). -/
structure RetryOutcome (T : Type) where
  result : Except GoErr T
  calls : Nat
  waits : List Int
deriving Repr

/-- The attempt loop of `retryLoop` (new implementation).  `remaining` is the
number of attempts still allowed (`MaxAttempts - attempt + 1`), `attempt` the
1-based attempt counter applied to the closure, `wait` the current backoff,
`lastErr` the loop variable of the same name.  The fuel-0 case is the code
after the loop: wrap `lastErr` quoting MaxAttempts.  `if remaining = 1` after
a failure is the `attempt == cfg.MaxAttempts { break }` early exit; otherwise
the loop waits (recording the slept duration), advances the backoff and
retries.  The closure is a function of the call number so that deterministic
failure scripts can be expressed. -/
def retrySteps {T : Type} (cfg : RetryConfig) (ctx : Nat → Bool)
    (fn : Nat → Except GoErr T) :
    Nat → Nat → Int → GoErr → RetryOutcome T
  | 0, _, _, lastErr =>
    ⟨.error (.afterAttempts cfg.MaxAttempts lastErr), 0, []⟩
  | remaining + 1, attempt, wait, _ =>
    match fn attempt with
    | .ok v => ⟨.ok v, 1, []⟩
    | .error e =>
      if remaining = 0 then
        ⟨.error (.afterAttempts cfg.MaxAttempts e), 1, []⟩
      else
        match waitWithContext (ctx attempt) with
        | some cerr => ⟨.error cerr, 1, []⟩
        | none =>
          let rest := retrySteps cfg ctx fn remaining (attempt + 1)
            (nextWait cfg wait) e
          ⟨rest.result, rest.calls + 1, wait :: rest.waits⟩

/-- retryLoop (new implementation): validates MaxAttempts before any closure
call, then runs the attempt loop from attempt 1 with InitialWait. -/
def retryLoopRun {T : Type} (cfg : RetryConfig) (ctx : Nat → Bool)
    (fn : Nat → Except GoErr T) : RetryOutcome T :=
  if cfg.MaxAttempts < 1 then
    ⟨.error (.invalidMaxAttempts cfg.MaxAttempts), 0, []⟩
  else
    retrySteps cfg ctx fn cfg.MaxAttempts.toNat 1 cfg.InitialWait .goNil

/-- Retry (new implementation) adapts a unit closure through retryLoop. -/
def RetryRun (ctx : Nat → Bool) (cfg : RetryConfig)
    (fn : Nat → Option GoErr) : RetryOutcome Unit :=
  retryLoopRun cfg ctx fun k =>
    match fn k with
    | none => .ok ()
    | some e => .error e

/-- The shared loop of the OLD implementation's Retry / RetryWithResult
(duplicated verbatim in the old file): same attempt loop, but reached without
any MaxAttempts validation; the ctx check and the `time.After` sleep form the
same select as the new waitWithContext under a deterministic context. -/
def oldRetrySteps {T : Type} (cfg : RetryConfig) (ctx : Nat → Bool)
    (fn : Nat → Except GoErr T) :
    Nat → Nat → Int → GoErr → RetryOutcome T
  | 0, _, _, lastErr =>
    ⟨.error (.afterAttempts cfg.MaxAttempts lastErr), 0, []⟩
  | remaining + 1, attempt, wait, _ =>
    match fn attempt with
    | .ok v => ⟨.ok v, 1, []⟩
    | .error e =>
      if remaining = 0 then
        ⟨.error (.afterAttempts cfg.MaxAttempts e), 1, []⟩
      else if ctx attempt then ⟨.error .ctxCanceled, 1, []⟩
      else
        let rest := oldRetrySteps cfg ctx fn remaining (attempt + 1)
          (nextWait cfg wait) e
        ⟨rest.result, rest.calls + 1, wait :: rest.waits⟩

/-- Retry / RetryWithResult of the old implementation: no validation, loop
runs zero times when MaxAttempts < 1 and wraps the nil lastErr. -/
def oldRetryRun {T : Type} (cfg : RetryConfig) (ctx : Nat → Bool)
    (fn : Nat → Except GoErr T) : RetryOutcome T :=
  oldRetrySteps cfg ctx fn cfg.MaxAttempts.toNat 1 cfg.InitialWait .goNil

/-- The never-cancelled context. -/
def ctxNever : Nat → Bool := fun _ => false

/-- The backoff value in force before the (k+1)-th wait, starting the
recurrence from `w`: `w`, then repeated nextWait. -/
def iterWaitFrom (cfg : RetryConfig) (w : Int) : Nat → Int
  | 0 => w
  | k + 1 => nextWait cfg (iterWaitFrom cfg w k)

/-- The backoff value slept after the (k+1)-th failed attempt: InitialWait,
then repeated nextWait. -/
def iterWait (cfg : RetryConfig) : Nat → Int :=
  iterWaitFrom cfg cfg.InitialWait

theorem iterWaitFrom_shift (cfg : RetryConfig) (w : Int) (k : Nat) :
    iterWaitFrom cfg w (k + 1) = iterWaitFrom cfg (nextWait cfg w) k := by
  induction k with
  | zero => rfl
  | succ j ih =>
    calc iterWaitFrom cfg w (j + 1 + 1)
        = nextWait cfg (iterWaitFrom cfg w (j + 1)) := rfl
      _ = nextWait cfg (iterWaitFrom cfg (nextWait cfg w) j) := by rw [ih]
      _ = iterWaitFrom cfg (nextWait cfg w) (j + 1) := rfl

theorem range_map_iterWaitFrom (cfg : RetryConfig) (w : Int) (k : Nat) :
    (List.range (k + 1)).map (iterWaitFrom cfg w)
      = w :: (List.range k).map (iterWaitFrom cfg (nextWait cfg w)) := by
  rw [List.range_succ_eq_map, List.map_cons, List.map_map]
  refine congrArg (fun l => iterWaitFrom cfg w 0 :: l) ?_
  refine List.map_congr_left ?_
  intro j hj
  exact iterWaitFrom_shift cfg w j

/-- One failed-attempt step of the loop when more attempts remain and the
context is live: record the slept wait and recurse. -/
theorem retrySteps_fail_step {T : Type} (cfg : RetryConfig) (ctx : Nat → Bool)
    (fn : Nat → Except GoErr T) (r attempt : Nat) (wait : Int) (le e : GoErr)
    (he : fn attempt = Except.error e) (hr : ¬ r = 0)
    (hc : ctx attempt = false) :
    retrySteps cfg ctx fn (r + 1) attempt wait le =
      ⟨(retrySteps cfg ctx fn r (attempt + 1) (nextWait cfg wait) e).result,
        (retrySteps cfg ctx fn r (attempt + 1) (nextWait cfg wait) e).calls + 1,
        wait ::
          (retrySteps cfg ctx fn r (attempt + 1) (nextWait cfg wait) e).waits⟩ := by
  simp only [retrySteps]
  simp [he, hr, hc, waitWithContext]

/-- With a never-cancelled context, if the closure fails on attempts
`attempt .. attempt+j-1` and succeeds on attempt `attempt+j`, and at least
`j+1` attempts remain, the loop returns that success after exactly `j+1`
closure calls. -/
theorem retrySteps_success {T : Type} (cfg : RetryConfig) (ctx : Nat → Bool)
    (fn : Nat → Except GoErr T) (hctx : ∀ k, ctx k = false) (v : T) :
    ∀ (j remaining attempt : Nat) (wait : Int) (le : GoErr),
      j < remaining →
      (∀ k, attempt ≤ k → k < attempt + j → ∃ e, fn k = Except.error e) →
      fn (attempt + j) = .ok v →
      (retrySteps cfg ctx fn remaining attempt wait le).result = .ok v ∧
      (retrySteps cfg ctx fn remaining attempt wait le).calls = j + 1 := by
  intro j
  induction j with
  | zero =>
    intro remaining attempt wait le hlt hfail hsucc
    obtain ⟨r, rfl⟩ : ∃ r, remaining = r + 1 := ⟨remaining - 1, by omega⟩
    rw [Nat.add_zero] at hsucc
    simp [retrySteps, hsucc]
  | succ j ih =>
    intro remaining attempt wait le hlt hfail hsucc
    obtain ⟨r, rfl⟩ : ∃ r, remaining = r + 1 := ⟨remaining - 1, by omega⟩
    obtain ⟨e, he⟩ := hfail attempt (Nat.le_refl _) (by omega)
    have hr : ¬ r = 0 := by omega
    have hrec := ih r (attempt + 1) (nextWait cfg wait) e (by omega)
      (fun k hk1 hk2 => hfail k (by omega) (by omega))
      (by
        have harith : attempt + 1 + j = attempt + (j + 1) := by omega
        rw [harith]
        exact hsucc)
    simp [retrySteps, he, hr, hctx, waitWithContext, hrec.1, hrec.2]

/-- With a never-cancelled context, if the closure fails on every one of the
`remaining` attempts left, the loop calls the closure `remaining` times,
returns the last error wrapped with the configured attempt count, and sleeps
exactly the backoff recurrence started from `wait`. -/
theorem retrySteps_allFail {T : Type} (cfg : RetryConfig) (ctx : Nat → Bool)
    (fn : Nat → Except GoErr T) (hctx : ∀ k, ctx k = false) :
    ∀ (remaining attempt : Nat) (wait : Int) (le : GoErr),
      1 ≤ remaining →
      (∀ k, attempt ≤ k → k < attempt + remaining → ∃ e, fn k = Except.error e) →
      ∃ eN, fn (attempt + remaining - 1) = Except.error eN ∧
        (retrySteps cfg ctx fn remaining attempt wait le).result
          = .error (.afterAttempts cfg.MaxAttempts eN) ∧
        (retrySteps cfg ctx fn remaining attempt wait le).calls = remaining ∧
        (retrySteps cfg ctx fn remaining attempt wait le).waits
          = (List.range (remaining - 1)).map (iterWaitFrom cfg wait) := by
  intro remaining
  induction remaining with
  | zero => intro attempt wait le h1; omega
  | succ r ih =>
    intro attempt wait le h1 hfail
    obtain ⟨e, he⟩ := hfail attempt (Nat.le_refl _) (by omega)
    by_cases hr : r = 0
    · subst hr
      refine ⟨e, by simpa using he, ?_, ?_, ?_⟩ <;> simp [retrySteps, he]
    · obtain ⟨eN, heN, hres, hcalls, hwaits⟩ :=
        ih (attempt + 1) (nextWait cfg wait) e (by omega)
          (fun k hk1 hk2 => hfail k (by omega) (by omega))
      have hstep := retrySteps_fail_step cfg ctx fn r attempt wait le e he hr
        (hctx attempt)
      refine ⟨eN, ?_, ?_, ?_, ?_⟩
      · have harith : attempt + 1 + r - 1 = attempt + (r + 1) - 1 := by omega
        rw [← harith]
        exact heN
      · rw [hstep]
        simpa using hres
      · rw [hstep]
        simpa using hcalls
      · rw [hstep]
        obtain ⟨r3, rfl⟩ : ∃ r3, r = r3 + 1 := ⟨r - 1, by omega⟩
        simp [hwaits, range_map_iterWaitFrom]

/-- C4: with a never-cancelled context, `max_attempts = N ≥ 1` and a closure
failing on its first N-1 calls and succeeding on the N-th, the retry loop
returns that success and the closure is called exactly N times. -/
theorem retry_succeeds_on_nth {T : Type} (N : Nat) (cfg : RetryConfig)
    (fn : Nat → Except GoErr T) (v : T)
    (hN : 1 ≤ N) (hcfg : cfg.MaxAttempts = (N : Int))
    (hfail : ∀ k, 1 ≤ k → k < N → ∃ e, fn k = Except.error e)
    (hsucc : fn N = Except.ok v) :
    (retryLoopRun cfg ctxNever fn).result = Except.ok v ∧
    (retryLoopRun cfg ctxNever fn).calls = N := by
  have hge : (1 : Int) ≤ cfg.MaxAttempts := by
    rw [hcfg]
    exact_mod_cast hN
  have hlt : ¬ cfg.MaxAttempts < 1 := by omega
  have htoNat : cfg.MaxAttempts.toNat = N := by
    rw [hcfg]
    simp
  have h := retrySteps_success cfg ctxNever fn (fun k => rfl) v (N - 1) N 1
    cfg.InitialWait .goNil (by omega)
    (fun k hk1 hk2 => hfail k hk1 (by omega))
    (by
      have harith : 1 + (N - 1) = N := by omega
      rw [harith]
      exact hsucc)
  have hN1 : N - 1 + 1 = N := by omega
  rw [hN1] at h
  constructor
  · simpa [retryLoopRun, hlt, htoNat] using h.1
  · simpa [retryLoopRun, hlt, htoNat] using h.2

/-- C4 witness: three attempts, two scripted failures, success on the third
with value 7. -/
theorem retry_succeeds_on_nth_witness :
    (retryLoopRun ⟨3, 1, 100, 2⟩ ctxNever
        (fun k => if k < 3 then Except.error (GoErr.base "transient")
          else Except.ok (7 : Nat))).result = Except.ok 7 ∧
    (retryLoopRun ⟨3, 1, 100, 2⟩ ctxNever
        (fun k => if k < 3 then Except.error (GoErr.base "transient")
          else Except.ok (7 : Nat))).calls = 3 :=
  retry_succeeds_on_nth 3 ⟨3, 1, 100, 2⟩
    (fun k => if k < 3 then Except.error (GoErr.base "transient")
      else Except.ok (7 : Nat))
    7 (by decide) (by decide)
    (fun k h1 h2 => ⟨GoErr.base "transient", by simp [h2]⟩) rfl

/-- C5: a config with MaxAttempts < 1 is rejected with a non-nil error before
any closure call, both through RetryWithResult (retryLoopRun) and through the
unit-closure Retry adapter, under any context. -/
theorem retry_rejects_bad_maxAttempts {T : Type} (cfg : RetryConfig)
    (ctx : Nat → Bool) (fn : Nat → Except GoErr T) (fnu : Nat → Option GoErr)
    (h : cfg.MaxAttempts < 1) :
    ((retryLoopRun cfg ctx fn).result
        = Except.error (.invalidMaxAttempts cfg.MaxAttempts) ∧
      (retryLoopRun cfg ctx fn).calls = 0) ∧
    ((RetryRun ctx cfg fnu).result
        = Except.error (.invalidMaxAttempts cfg.MaxAttempts) ∧
      (RetryRun ctx cfg fnu).calls = 0) := by
  refine ⟨⟨?_, ?_⟩, ?_, ?_⟩ <;> simp [retryLoopRun, RetryRun, h]

/-- C5 witness: MaxAttempts = 0 is rejected with zero closure calls. -/
theorem retry_rejects_bad_maxAttempts_witness :
    ((retryLoopRun ⟨0, 1, 1, 1⟩ ctxNever
        (fun _ => Except.ok (0 : Nat))).result
        = Except.error (.invalidMaxAttempts 0) ∧
      (retryLoopRun ⟨0, 1, 1, 1⟩ ctxNever
        (fun _ => Except.ok (0 : Nat))).calls = 0) ∧
    ((RetryRun ctxNever ⟨0, 1, 1, 1⟩ (fun _ => none)).result
        = Except.error (.invalidMaxAttempts 0) ∧
      (RetryRun ctxNever ⟨0, 1, 1, 1⟩ (fun _ => none)).calls = 0) :=
  retry_rejects_bad_maxAttempts ⟨0, 1, 1, 1⟩ ctxNever
    (fun _ => Except.ok (0 : Nat)) (fun _ => none) (by decide)

/-- C6 counterexample: with InitialWait = 10, MaxWait = 5, Multiplier = 2 and
MaxAttempts = 2, the wait slept after the first failed attempt is the raw
InitialWait 10, not min(initial_wait * multiplier^(1-1), max_wait) = 5: the
code never caps the initial wait at MaxWait. -/
theorem retry_wait_formula_counterexample :
    (retryLoopRun ⟨2, 10, 5, 2⟩ ctxNever
        (fun _ => (Except.error (GoErr.base "transient") :
          Except GoErr Unit))).waits = [10] ∧
    ¬ (10 : Int) = min (10 * 2 ^ (1 - 1)) 5 := by
  decide

/-- C6 amended: the wait slept after the k-th failed attempt (k = 1, ..,
MaxAttempts-1) is `iterWait cfg (k-1)`: InitialWait for k = 1, uncapped, and
thereafter min(trunc(previous * Multiplier), MaxWait); the waits of a full
failing run are exactly that recurrence. -/
theorem retry_wait_recurrence {T : Type} (N : Nat) (cfg : RetryConfig)
    (fn : Nat → Except GoErr T)
    (hN : 1 ≤ N) (hcfg : cfg.MaxAttempts = (N : Int))
    (hfail : ∀ k, 1 ≤ k → k ≤ N → ∃ e, fn k = Except.error e) :
    (retryLoopRun cfg ctxNever fn).waits
      = (List.range (N - 1)).map (iterWait cfg) := by
  have hge : (1 : Int) ≤ cfg.MaxAttempts := by
    rw [hcfg]
    exact_mod_cast hN
  have hlt : ¬ cfg.MaxAttempts < 1 := by omega
  have htoNat : cfg.MaxAttempts.toNat = N := by
    rw [hcfg]
    simp
  obtain ⟨eN, heN, hres, hcalls, hwaits⟩ :=
    retrySteps_allFail cfg ctxNever fn (fun k => rfl) N 1 cfg.InitialWait
      .goNil hN (fun k hk1 hk2 => hfail k (by omega) (by omega))
  have h1N : 1 + N - 1 = N := by omega
  simpa [retryLoopRun, hlt, htoNat, iterWait] using hwaits

/-- C6 amended witness: three failing attempts with InitialWait 1 and
Multiplier 2 sleep 1 then 2 nanoseconds. -/
theorem retry_wait_recurrence_witness :
    (retryLoopRun ⟨3, 1, 100, 2⟩ ctxNever
        (fun _ => (Except.error (GoErr.base "transient") :
          Except GoErr Unit))).waits
      = (List.range 2).map (iterWait ⟨3, 1, 100, 2⟩) :=
  retry_wait_recurrence 3 ⟨3, 1, 100, 2⟩
    (fun _ => (Except.error (GoErr.base "transient") : Except GoErr Unit))
    (by decide) (by decide)
    (fun k h1 h2 => ⟨GoErr.base "transient", rfl⟩)

/-- C7: when every one of the N = MaxAttempts ≥ 1 attempts fails under a
never-cancelled context, the loop returns the last closure error wrapped in
the after-N-attempts error: the message quotes the attempt count, Unwrap
yields the last error and errors.Is reaches it. -/
theorem retry_allFail_wraps_last {T : Type} (N : Nat) (cfg : RetryConfig)
    (fn : Nat → Except GoErr T)
    (hN : 1 ≤ N) (hcfg : cfg.MaxAttempts = (N : Int))
    (hfail : ∀ k, 1 ≤ k → k ≤ N → ∃ e, fn k = Except.error e) :
    ∃ eN, fn N = Except.error eN ∧
      (retryLoopRun cfg ctxNever fn).result
        = Except.error (.afterAttempts cfg.MaxAttempts eN) ∧
      (retryLoopRun cfg ctxNever fn).calls = N ∧
      (GoErr.afterAttempts cfg.MaxAttempts eN).unwrap = some eN ∧
      errorsIs (.afterAttempts cfg.MaxAttempts eN) eN = true ∧
      (GoErr.afterAttempts cfg.MaxAttempts eN).message
        = "after " ++ toString cfg.MaxAttempts ++ " attempts: "
            ++ eN.message := by
  have hge : (1 : Int) ≤ cfg.MaxAttempts := by
    rw [hcfg]
    exact_mod_cast hN
  have hlt : ¬ cfg.MaxAttempts < 1 := by omega
  have htoNat : cfg.MaxAttempts.toNat = N := by
    rw [hcfg]
    simp
  obtain ⟨eN, heN, hres, hcalls, hwaits⟩ :=
    retrySteps_allFail cfg ctxNever fn (fun k => rfl) N 1 cfg.InitialWait
      .goNil hN (fun k hk1 hk2 => hfail k (by omega) (by omega))
  have h1N : 1 + N - 1 = N := by omega
  rw [h1N] at heN
  refine ⟨eN, heN, ?_, ?_, rfl, ?_, ?_⟩
  · simpa [retryLoopRun, hlt, htoNat] using hres
  · simpa [retryLoopRun, hlt, htoNat] using hcalls
  · simp [errorsIs, errorsIs_self]
  · simp [GoErr.message]

/-- C7 witness: two failing attempts produce the wrapped after-2-attempts
error whose cause chain reaches the final closure error. -/
theorem retry_allFail_wraps_last_witness :
    (retryLoopRun ⟨2, 1, 100, 2⟩ ctxNever
        (fun _ => (Except.error (GoErr.base "boom") :
          Except GoErr Unit))).result
      = Except.error (.afterAttempts 2 (.base "boom")) ∧
    (retryLoopRun ⟨2, 1, 100, 2⟩ ctxNever
        (fun _ => (Except.error (GoErr.base "boom") :
          Except GoErr Unit))).calls = 2 ∧
    errorsIs (.afterAttempts 2 (.base "boom")) (.base "boom") = true := by
  obtain ⟨eN, heN, hres, hcalls, hunwrap, his, hmsg⟩ :=
    retry_allFail_wraps_last 2 ⟨2, 1, 100, 2⟩
      (fun _ => (Except.error (GoErr.base "boom") : Except GoErr Unit))
      (by decide) (by decide)
      (fun k h1 h2 => ⟨GoErr.base "boom", rfl⟩)
  have heq : eN = GoErr.base "boom" := by
    have h2 : Except.error (GoErr.base "boom")
        = (Except.error eN : Except GoErr Unit) := heN
    cases h2
    rfl
  subst heq
  exact ⟨hres, hcalls, his⟩

/-- The old and new attempt loops agree step for step under a deterministic
never-cancelled context. -/
theorem oldRetrySteps_eq_retrySteps {T : Type} (cfg : RetryConfig)
    (ctx : Nat → Bool) (fn : Nat → Except GoErr T)
    (hctx : ∀ k, ctx k = false) :
    ∀ (remaining attempt : Nat) (wait : Int) (le : GoErr),
      oldRetrySteps cfg ctx fn remaining attempt wait le
        = retrySteps cfg ctx fn remaining attempt wait le := by
  intro remaining
  induction remaining with
  | zero => intro attempt wait le; rfl
  | succ r ih =>
    intro attempt wait le
    simp only [oldRetrySteps, retrySteps]
    cases hfn : fn attempt with
    | ok v => rfl
    | error e =>
      by_cases hr : r = 0
      · simp [hr]
      · simp [hr, hctx, waitWithContext, ih]

/-- C10: for every config with MaxAttempts ≥ 1, a never-cancelled context and
the same deterministic closure, the old Retry/RetryWithResult loop and the
new retryLoop return the same outcome — same result, same number of closure
calls, and the same backoff wait sequence. -/
theorem old_new_retry_equiv {T : Type} (cfg : RetryConfig) (ctx : Nat → Bool)
    (fn : Nat → Except GoErr T) (h1 : 1 ≤ cfg.MaxAttempts)
    (hctx : ∀ k, ctx k = false) :
    oldRetryRun cfg ctx fn = retryLoopRun cfg ctx fn := by
  have hlt : ¬ cfg.MaxAttempts < 1 := by omega
  simp [oldRetryRun, retryLoopRun, hlt,
    oldRetrySteps_eq_retrySteps cfg ctx fn hctx]

/-- C10 witness: under the default config and a closure failing twice then
returning 7, both implementations produce identical outcomes. -/
theorem old_new_retry_equiv_witness :
    oldRetryRun DefaultRetryConfig ctxNever
        (fun k => if k < 3 then Except.error (GoErr.base "transient")
          else Except.ok (7 : Nat))
      = retryLoopRun DefaultRetryConfig ctxNever
        (fun k => if k < 3 then Except.error (GoErr.base "transient")
          else Except.ok (7 : Nat)) :=
  old_new_retry_equiv DefaultRetryConfig ctxNever
    (fun k => if k < 3 then Except.error (GoErr.base "transient")
      else Except.ok (7 : Nat))
    (by decide) (fun k => rfl)

/-! ## Exclusive-create placeholder (fsmeta producer election) -/

/-- Result of one `os.OpenFile(path, O_CREATE|O_EXCL, 0600)` call. -/
inductive ExclResult where
  | created
  | errExist
deriving DecidableEq, Repr

/-- The kernel's exclusive create as an atomic step over the one bit of
filesystem state that matters for the race (whether the placeholder path
exists): the call creates and wins when the path is absent, and fails with
the already-exists error when present.  Modelled on the POSIX O_CREAT|O_EXCL
contract that TestFsmetaPlaceholderRace exercises; the goroutines'
concurrency is captured by quantifying over every linearization of their
atomic create calls. -/
def openExcl (present : Bool) : Bool × ExclResult :=
  if present then (true, .errExist) else (true, .created)

/-- Run the identified goroutines' create attempts in linearization order,
threading the path-exists bit. -/
def runExclAttempts : List Nat → Bool → List (Nat × ExclResult)
  | [], _ => []
  | g :: rest, present =>
    ((g, (openExcl present).2)) :: runExclAttempts rest (openExcl present).1

theorem runExclAttempts_present (gs : List Nat) :
    runExclAttempts gs true = gs.map (fun g => (g, ExclResult.errExist)) := by
  induction gs with
  | nil => rfl
  | cons g rest ih => simp [runExclAttempts, openExcl, ih]

/-- C9: for every nonempty set of concurrent attempts to create the fsmeta
placeholder with O_CREAT|O_EXCL — i.e. every linearization `gs` of the
goroutines' atomic create calls on an initially absent path — exactly one
attempt succeeds and all the others observe the already-exists failure. -/
theorem fsmeta_placeholder_one_winner (gs : List Nat) (h : 1 ≤ gs.length) :
    ((runExclAttempts gs false).filter
        (fun p => p.2 = ExclResult.created)).length = 1 ∧
    ((runExclAttempts gs false).filter
        (fun p => p.2 = ExclResult.errExist)).length = gs.length - 1 := by
  cases gs with
  | nil => simp at h
  | cons g rest =>
    have hrun : runExclAttempts (g :: rest) false
        = (g, ExclResult.created)
            :: rest.map (fun g2 => (g2, ExclResult.errExist)) := by
      simp [runExclAttempts, openExcl, runExclAttempts_present]
    rw [hrun]
    constructor
    · simp [List.filter, List.filter_map]
    · simp [List.filter, List.filter_map]

/-- C9 witness: the 20 goroutines of TestFsmetaPlaceholderRace, linearized in
index order, yield exactly one winner and 19 already-exists failures. -/
theorem fsmeta_placeholder_one_winner_witness :
    ((runExclAttempts (List.range 20) false).filter
        (fun p => p.2 = ExclResult.created)).length = 1 ∧
    ((runExclAttempts (List.range 20) false).filter
        (fun p => p.2 = ExclResult.errExist)).length = 19 :=
  fsmeta_placeholder_one_winner (List.range 20) (by decide)

end NexusErofs
